import Mathlib

/-!
Verification development for the `one_pole` plugin crate.

The crate's single source file (`src/lib.rs`) is the per-block driver of a
one-pole filter: it maps the host parameter snapshot (normalized cutoff,
gain in dB, filter mode) to physical quantities, refreshes the filter's
smoothing targets once per block, and then, for each stereo frame, advances
the smoothers, advances the filter, derives the mode-selected output and
writes it back in place.

The filter core itself (`OnePole`, its smoothers and integrator) lives in
the external `plugin_util` crate, which is not part of this repository's
sources; those components are modelled here from the specification
(sections 4.1 - 4.5), as noted in their doc comments.  Everything about the
driver (`processBlock`, `applyParamUpdate`, the frame loop, `reset`,
`initialize`, the parameter maps `cutoffHz` and `gainLin`, and the audio
layout constant) is translated directly from `src/lib.rs`.

Scalars are modelled as elements of an arbitrary field (instantiated at `ℝ`
for the claims about the transcendental parameter maps, and at `ℚ` for
executable witnesses); `f32` rounding is not modelled.  The transcendental
operations the code uses (`tan`, `powf`, the n-th root used by the
logarithmic smoother, and the constant `π`) are collected in a `DspOps`
bundle so that the driver stays computable and generic; `realOps` is the
real-number instantiation.
-/

/-- The transcendental operations used by the code, abstracted so the model
is generic in the scalar type.  `piv` models `std::f32::consts::PI`, `tanF`
models `f32::tan`, `powF` models `f32::powf`, and `nthRoot n x` models the
n-th root used by the logarithmic (geometric) gain smoother. -/
structure DspOps (R : Type) where
  piv : R
  tanF : R → R
  powF : R → R → R
  nthRoot : ℕ → R → R

variable {R : Type} [Field R]

/-- Modelled from the spec: §4.1 Smoother, linear-interpolation path (used
for the filter coefficient).  `set_target` stores the destination and the
number of remaining advance calls; `tick` moves the current value one step
closer; once the steps are exhausted, further ticks hold the value. -/
structure LinSmoother (R : Type) where
  current : R
  target : R
  inc : R
  stepsLeft : ℕ
deriving DecidableEq

/-- Modelled from the spec: §4.1 `set_target(target, steps)` for the linear
smoother: the per-step increment covers the distance in `steps` steps. -/
def LinSmoother.set_target (sm : LinSmoother R) (t : R) (steps : ℕ) : LinSmoother R :=
  { current := sm.current, target := t, inc := (t - sm.current) / (steps : R), stepsLeft := steps }

/-- Modelled from the spec: §4.1 `tick()` for the linear smoother. -/
def LinSmoother.tick (sm : LinSmoother R) : LinSmoother R :=
  match sm.stepsLeft with
  | 0 => sm
  | k + 1 => { current := sm.current + sm.inc, target := sm.target, inc := sm.inc, stepsLeft := k }

/-- Modelled from the spec: §4.1 Smoother, logarithmic/geometric path (used
for the gain, which is perceived and applied multiplicatively). -/
structure LogSmoother (R : Type) where
  current : R
  target : R
  factor : R
  stepsLeft : ℕ
deriving DecidableEq

/-- Modelled from the spec: §4.1 `set_target(target, steps)` for the
logarithmic smoother: the per-step factor is the `steps`-th root of the
ratio between target and current value. -/
def LogSmoother.set_target (sm : LogSmoother R) (ops : DspOps R) (t : R) (steps : ℕ) :
    LogSmoother R :=
  { current := sm.current, target := t, factor := ops.nthRoot steps (t / sm.current),
    stepsLeft := steps }

/-- Modelled from the spec: §4.1 `tick()` for the logarithmic smoother. -/
def LogSmoother.tick (sm : LogSmoother R) : LogSmoother R :=
  match sm.stepsLeft with
  | 0 => sm
  | k + 1 => { current := sm.current * sm.factor, target := sm.target, factor := sm.factor,
               stepsLeft := k }

/-- Modelled from the spec: §4.2 Integrator.  One scalar of state per audio
channel (the shipped variants are stereo, so two lanes, modelled as a
pair). -/
structure Integrator (R : Type) where
  s : R × R
deriving DecidableEq

/-- Modelled from the spec: §4.2 `process(delta, g)` updates the state as
`state += g * delta` (per channel, with the coefficient broadcast). -/
def Integrator.process (ig : Integrator R) (delta : R × R) (g : R) : Integrator R :=
  ⟨(ig.s.1 + g * delta.1, ig.s.2 + g * delta.2)⟩

/-- Modelled from the spec: §4.2 `previous_output()` — the stored state,
i.e. the output of the previous `process` call. -/
def Integrator.previous_output (ig : Integrator R) : R × R := ig.s

/-- Modelled from the spec: §4.2 `reset()` zeroes the state of all
channels. -/
def Integrator.reset (_ig : Integrator R) : Integrator R := ⟨(0, 0)⟩

/-- Modelled from the spec: the `OnePole` filter of `plugin_util`
(§2, §4.3 - §4.5): a linear smoother for the coefficient, a logarithmic
smoother for the gain, the integrator, the retained input of the current
frame (needed by the output-derivation formulas), and the cached angular
scale factor `π / sample_rate` (§6). -/
structure OnePole (R : Type) where
  piTick : R
  g : LinSmoother R
  k : LogSmoother R
  integ : Integrator R
  x : R × R
deriving DecidableEq

/-- Zero-initialized filter, mirroring Rust's `#[derive(Default)]` on the
plugin struct. -/
instance : Inhabited (OnePole R) :=
  ⟨{ piTick := 0, g := ⟨0, 0, 0, 0⟩, k := ⟨0, 0, 0, 0⟩, integ := ⟨(0, 0)⟩, x := (0, 0) }⟩

/-- Modelled from the spec: §6 — at initialization the filter derives and
caches the angular-frequency scale factor `π / sample_rate` used in all
subsequent cutoff conversions. -/
def OnePole.set_sample_rate (f : OnePole R) (ops : DspOps R) (sr : R) : OnePole R :=
  { f with piTick := ops.piv / sr }

/-- Modelled from the spec: §4.3 — the target coefficient from a cutoff
frequency, via the bilinear-transform identity `g = tan θ / (1 + tan θ)`
with `θ` the cutoff scaled by the cached `π / sample_rate` factor. -/
def OnePole.gFromCutoff (f : OnePole R) (ops : DspOps R) (cutoff : R) : R :=
  let t := ops.tanF (cutoff * f.piTick)
  t / (1 + t)

/-- Modelled from the spec: §4.3 `set_cutoff_smoothed(cutoff, block_len)`
(cutoff-only modes): retarget the coefficient smoother; the gain smoother
is untouched. -/
def OnePole.set_cutoff_smoothed (f : OnePole R) (ops : DspOps R) (cutoff : R) (n : ℕ) :
    OnePole R :=
  { f with g := f.g.set_target (f.gFromCutoff ops cutoff) n }

/-- Modelled from the spec: §4.3 `set_params_low_shelving_smoothed`:
retarget the coefficient smoother and the gain smoother. -/
def OnePole.set_params_low_shelving_smoothed (f : OnePole R) (ops : DspOps R)
    (cutoff gain : R) (n : ℕ) : OnePole R :=
  { f with g := f.g.set_target (f.gFromCutoff ops cutoff) n,
           k := f.k.set_target ops gain n }

/-- Modelled from the spec: §4.3 `set_params_high_shelving_smoothed`:
retarget the coefficient smoother and the gain smoother. -/
def OnePole.set_params_high_shelving_smoothed (f : OnePole R) (ops : DspOps R)
    (cutoff gain : R) (n : ℕ) : OnePole R :=
  { f with g := f.g.set_target (f.gFromCutoff ops cutoff) n,
           k := f.k.set_target ops gain n }

/-- Modelled from the spec: §4.4 `update_smoothers()` advances both
smoothers by one step. -/
def OnePole.update_smoothers (f : OnePole R) : OnePole R :=
  { f with g := f.g.tick, k := f.k.tick }

/-- Modelled from the spec: §4.4 `process(sample)`:
`delta = sample - integrator.previous_output()`, then the integrator
advances with the current smoothed coefficient; the input sample is
retained for the output-derivation formulas. -/
def OnePole.process (f : OnePole R) (sample : R × R) : OnePole R :=
  let prev := f.integ.previous_output
  let delta := (sample.1 - prev.1, sample.2 - prev.2)
  { f with integ := f.integ.process delta f.g.current, x := sample }

/-- Modelled from the spec: §4.5 — `LP` is the integrator state after the
current `process` call. -/
def OnePole.get_lowpass (f : OnePole R) : R × R := f.integ.previous_output

/-- Modelled from the spec: §4.5 — `HP = input - LP`. -/
def OnePole.get_highpass (f : OnePole R) : R × R :=
  let lp := f.integ.previous_output
  (f.x.1 - lp.1, f.x.2 - lp.2)

/-- Modelled from the spec: §4.5 — `AP = 2·LP - input`. -/
def OnePole.get_allpass (f : OnePole R) : R × R :=
  let lp := f.integ.previous_output
  (2 * lp.1 - f.x.1, 2 * lp.2 - f.x.2)

/-- Modelled from the spec: §4.5 — low shelf `y = gain·LP + HP`. -/
def OnePole.get_lowshelf (f : OnePole R) : R × R :=
  let lp := f.integ.previous_output
  (f.k.current * lp.1 + (f.x.1 - lp.1), f.k.current * lp.2 + (f.x.2 - lp.2))

/-- Modelled from the spec: §4.5 — high shelf `y = LP + gain·HP`. -/
def OnePole.get_highshelf (f : OnePole R) : R × R :=
  let lp := f.integ.previous_output
  (lp.1 + f.k.current * (f.x.1 - lp.1), lp.2 + f.k.current * (f.x.2 - lp.2))

/-- Modelled from the spec: §4.4 `reset()` — flushes the internal filter
state (integrator and retained input) to silence; the smoothers are
untouched. -/
def OnePole.reset (f : OnePole R) : OnePole R :=
  { f with integ := f.integ.reset, x := (0, 0) }

/-- The filter mode enumeration (`src/lib.rs`, lines 25-37). -/
inductive FilterMode where
  | HP
  | LP
  | AP
  | LSH
  | HSH
deriving DecidableEq

/-- `FilterMode::output_function` (`src/lib.rs`, lines 39-52): selects the
output-derivation function for the block. -/
def outputFunction : FilterMode → (OnePole R → R × R)
  | .HP => OnePole.get_highpass
  | .LP => OnePole.get_lowpass
  | .AP => OnePole.get_allpass
  | .LSH => OnePole.get_lowshelf
  | .HSH => OnePole.get_highshelf

/-- The host parameter snapshot read at the start of each block
(`OnePoleParams`, `src/lib.rs` lines 15-23): normalized cutoff in `[0,1]`,
gain in dB, and the mode selector. -/
structure Params (R : Type) where
  cutoff : R
  gain : R
  mode : FilterMode
deriving DecidableEq

/-- `MIN_FREQ` (`src/lib.rs` line 12). -/
def MIN_FREQ (R : Type) [Field R] : R := 13

/-- `MAX_FREQ` (`src/lib.rs` line 13). -/
def MAX_FREQ (R : Type) [Field R] : R := 21000

/-- The cutoff frequency handed to the filter each block
(`src/lib.rs` lines 130-132): `MIN_FREQ * (MAX_FREQ / MIN_FREQ).powf(p)`
where `p` is the unmodulated plain value of the cutoff parameter. -/
def cutoffHz (ops : DspOps R) (p : R) : R :=
  MIN_FREQ R * ops.powF (MAX_FREQ R / MIN_FREQ R) p

/-- The linear gain factor computed each block (`src/lib.rs` lines
136-138): `10f32.powf(gain_db * (1. / 20.))`. -/
def gainLin (ops : DspOps R) (d : R) : R :=
  ops.powF 10 (d * (1 / 20))

/-- Instrumentation events recording, in order, every filter operation the
driver performs during a `process` call: the three block-level parameter
updates, the two per-frame filter calls, and the in-place write of a
frame's output. -/
inductive Event (R : Type) where
  | set_params_low_shelving (cutoff gain : R) (n : ℕ)
  | set_params_high_shelving (cutoff gain : R) (n : ℕ)
  | set_cutoff (cutoff : R) (n : ℕ)
  | update_smoothers
  | process_sample (s : R × R)
  | write_frame (i : ℕ) (v : R × R)
deriving DecidableEq

/-- Whether an event is one of the three block-level parameter-update
operations of §4.3. -/
def Event.isParamUpdate : Event R → Bool
  | .set_params_low_shelving _ _ _ => true
  | .set_params_high_shelving _ _ _ => true
  | .set_cutoff _ _ => true
  | _ => false

/-- The parameter-update event the driver emits for a block, determined by
the mode exactly as the `match` at `src/lib.rs` lines 142-146. -/
def blockEvent (ops : DspOps R) (ps : Params R) (n : ℕ) : Event R :=
  match ps.mode with
  | .LSH => .set_params_low_shelving (cutoffHz ops ps.cutoff) (gainLin ops ps.gain) n
  | .HSH => .set_params_high_shelving (cutoffHz ops ps.cutoff) (gainLin ops ps.gain) n
  | _ => .set_cutoff (cutoffHz ops ps.cutoff) n

/-- The block-level parameter update of `Plugin::process`
(`src/lib.rs` lines 130-146): the mapped cutoff and linear gain are
computed from the snapshot, then exactly one of the three `set_*`
operations is invoked on the filter according to the mode.  Returns the
updated filter together with the emitted event. -/
def applyParamUpdate (ops : DspOps R) (ps : Params R) (n : ℕ) (f : OnePole R) :
    OnePole R × Event R :=
  let cutoff := cutoffHz ops ps.cutoff
  let gain := gainLin ops ps.gain
  match ps.mode with
  | .LSH => (f.set_params_low_shelving_smoothed ops cutoff gain n,
             .set_params_low_shelving cutoff gain n)
  | .HSH => (f.set_params_high_shelving_smoothed ops cutoff gain n,
             .set_params_high_shelving cutoff gain n)
  | _ => (f.set_cutoff_smoothed ops cutoff n, .set_cutoff cutoff n)

/-- The per-frame loop of `Plugin::process` (`src/lib.rs` lines 150-165),
over an explicit list of frame indices.  For each index: read the frame
(both channels), `update_smoothers`, `process`, derive the output with the
selected function, and write it back in place (`List.set`).  The audio
buffer is a list of stereo frames. -/
def loopFrames (out : OnePole R → R × R) :
    List ℕ → List (R × R) → OnePole R → List (R × R) × OnePole R × List (Event R)
  | [], buf, f => (buf, f, [])
  | i :: rest, buf, f =>
    let sample := buf.getD i (0, 0)
    let f1 := f.update_smoothers
    let f2 := f1.process sample
    let v := out f2
    let r := loopFrames out rest (buf.set i v) f2
    (r.1, r.2.1,
      Event.update_smoothers :: Event.process_sample sample :: Event.write_frame i v :: r.2.2)

/-- The result of one `Plugin::process` call: the buffer contents on
return, the filter state on return, and the ordered event trace. -/
structure BlockResult (R : Type) where
  buffer : List (R × R)
  filter : OnePole R
  trace : List (Event R)
deriving DecidableEq

/-- `Plugin::process` (`src/lib.rs` lines 121-168): one block.  Reads the
parameter snapshot, performs the single block-level parameter update,
selects the output function from the mode, and runs the frame loop over
the whole buffer. -/
def processBlock (ops : DspOps R) (ps : Params R) (buffer : List (R × R)) (f : OnePole R) :
    BlockResult R :=
  let num_samples := buffer.length
  let fe := applyParamUpdate ops ps num_samples f
  let get_output := outputFunction ps.mode
  let r := loopFrames get_output (List.range num_samples) buffer fe.1
  ⟨r.1, r.2.1, fe.2 :: r.2.2⟩

/-- The plugin struct `OnePoleFilter` (`src/lib.rs` lines 80-84): the
parameter object and the stereo filter. -/
structure OnePoleFilter (R : Type) where
  params : Params R
  filter : OnePole R
deriving DecidableEq

/-- `Plugin::reset` (`src/lib.rs` lines 185-187): resets the filter only;
the parameters are untouched. -/
def OnePoleFilter.reset (st : OnePoleFilter R) : OnePoleFilter R :=
  { st with filter := st.filter.reset }

/-- `Plugin::initialize` (`src/lib.rs` lines 174-183): hands the stream's
sample rate to the filter. -/
def OnePoleFilter.initialize (st : OnePoleFilter R) (ops : DspOps R) (sr : R) :
    OnePoleFilter R :=
  { st with filter := st.filter.set_sample_rate ops sr }

/-- `Plugin::process` at the level of the plugin struct: the snapshot is
the struct's own parameter object. -/
def OnePoleFilter.process (st : OnePoleFilter R) (ops : DspOps R) (buffer : List (R × R)) :
    BlockResult R × OnePoleFilter R :=
  let r := processBlock ops st.params buffer st.filter
  (r, { st with filter := r.filter })

/-- An entry of `Plugin::AUDIO_IO_LAYOUTS` (`src/lib.rs` lines 105-111). -/
structure AudioIOLayout where
  main_input_channels : Option ℕ
  main_output_channels : Option ℕ
deriving DecidableEq

/-- `AUDIO_IO_LAYOUTS` (`src/lib.rs` lines 105-111): a single layout with
exactly two input and two output channels. -/
def AUDIO_IO_LAYOUTS : List AudioIOLayout :=
  [{ main_input_channels := some 2, main_output_channels := some 2 }]

/-- The channel indices accessed without bounds checks in the frame loop
(`src/lib.rs` lines 152-164): `get_unchecked_mut(i)` for `i` produced by
`array::from_fn` over `[0, 2)`, and the two writes at indices 0 and 1. -/
def accessedChannelIndices : List ℕ := [0, 1]

/-- The frame read of `src/lib.rs` lines 152-154 with the bounds checks
restored: fails (returns `none`) whenever an accessed index is out of
bounds. -/
def readFrameChecked {S : Type} (frame : List S) : Option (S × S) :=
  match frame.get? 0, frame.get? 1 with
  | some a, some b => some (a, b)
  | _, _ => none

/-- The frame write-back of `src/lib.rs` lines 161-164 with the bounds
checks restored. -/
def writeFrameChecked {S : Type} (frame : List S) (v : S × S) : Option (List S) :=
  if 0 < frame.length ∧ 1 < frame.length then some ((frame.set 0 v.1).set 1 v.2) else none

/-- The real-number instantiation of the transcendental operations: the
scalars of the actual program, with `f32` rounding collapsed to `ℝ`. -/
noncomputable def realOps : DspOps ℝ :=
  { piv := Real.pi, tanF := Real.tan, powF := fun b e => b ^ e,
    nthRoot := fun n x => x ^ ((n : ℝ)⁻¹) }

/-- A rational instantiation of the operation bundle, used to evaluate the
generic driver theorems on concrete inputs. -/
def ratOps : DspOps ℚ :=
  { piv := 0, tanF := id, powF := fun b _ => b, nthRoot := fun _ x => x }

/-- The input frame read in iteration `k` of the loop: entry `k` of the
block's buffer. -/
def frameInput (buf : List (R × R)) (k : ℕ) : R × R := buf.getD k (0, 0)

/-- The filter state during a block: after the parameter update (`k = 0`)
and after each completed frame (`k + 1`). -/
def frameState (ops : DspOps R) (ps : Params R) (buf : List (R × R)) (f : OnePole R) :
    ℕ → OnePole R
  | 0 => (applyParamUpdate ops ps buf.length f).1
  | k + 1 => ((frameState ops ps buf f k).update_smoothers).process (frameInput buf k)

/-- The output written back for frame `k`: the mode-selected function
applied to the filter state right after that frame's `process` call. -/
def frameOutput (ops : DspOps R) (ps : Params R) (buf : List (R × R)) (f : OnePole R)
    (k : ℕ) : R × R :=
  outputFunction ps.mode (frameState ops ps buf f (k + 1))

/-- The buffer during a block: after `k` completed frames. -/
def bufAfter (ops : DspOps R) (ps : Params R) (buf : List (R × R)) (f : OnePole R) :
    ℕ → List (R × R)
  | 0 => buf
  | k + 1 => (bufAfter ops ps buf f k).set k (frameOutput ops ps buf f k)

/-- The three events of one loop iteration. -/
def frameTrace (ops : DspOps R) (ps : Params R) (buf : List (R × R)) (f : OnePole R)
    (i : ℕ) : List (Event R) :=
  [Event.update_smoothers, Event.process_sample (frameInput buf i),
   Event.write_frame i (frameOutput ops ps buf f i)]

/-- The event trace of the loop iterations for frames `a, a+1, …, a+k-1`. -/
def traceSeg (ops : DspOps R) (ps : Params R) (buf : List (R × R)) (f : OnePole R)
    (a k : ℕ) : List (Event R) :=
  ((List.range' a k).map (frameTrace ops ps buf f)).flatten

theorem bufAfter_length (ops : DspOps R) (ps : Params R) (buf : List (R × R))
    (f : OnePole R) : ∀ k, (bufAfter ops ps buf f k).length = buf.length := by
  intro k
  induction k with
  | zero => rfl
  | succ k ih => simpa [bufAfter] using ih

theorem bufAfter_getD_of_le (ops : DspOps R) (ps : Params R) (buf : List (R × R))
    (f : OnePole R) : ∀ k j, k ≤ j →
    (bufAfter ops ps buf f k).getD j (0, 0) = buf.getD j (0, 0) := by
  intro k
  induction k with
  | zero => intro j _; rfl
  | succ k ih =>
    intro j hj
    have hkj : k ≠ j := by omega
    have hk : k ≤ j := by omega
    calc (bufAfter ops ps buf f (k + 1)).getD j (0, 0)
        = (bufAfter ops ps buf f k).getD j (0, 0) := by
          simp [bufAfter, List.getD_eq_getElem?_getD, List.getElem?_set_ne hkj]
      _ = buf.getD j (0, 0) := ih j hk

theorem loopFrames_spec (ops : DspOps R) (ps : Params R) (buf : List (R × R))
    (f : OnePole R) : ∀ k a,
    loopFrames (outputFunction ps.mode) (List.range' a k)
        (bufAfter ops ps buf f a) (frameState ops ps buf f a)
      = (bufAfter ops ps buf f (a + k), frameState ops ps buf f (a + k),
         traceSeg ops ps buf f a k) := by
  intro k
  induction k with
  | zero => intro a; simp [loopFrames, traceSeg]
  | succ k ih =>
    intro a
    have hread : (bufAfter ops ps buf f a).getD a (0, 0) = frameInput buf a :=
      bufAfter_getD_of_le ops ps buf f a a le_rfl
    have hidx : a + 1 + k = a + (k + 1) := by omega
    have hih := ih (a + 1)
    rw [hidx] at hih
    simp only [List.range'_succ, loopFrames, hread]
    rw [show ((frameState ops ps buf f a).update_smoothers).process (frameInput buf a)
          = frameState ops ps buf f (a + 1) from rfl,
        show (bufAfter ops ps buf f a).set a
            (outputFunction ps.mode (frameState ops ps buf f (a + 1)))
          = bufAfter ops ps buf f (a + 1) from rfl,
        hih]
    simp [traceSeg, List.range'_succ, frameTrace, frameOutput]

theorem processBlock_eq (ops : DspOps R) (ps : Params R) (buf : List (R × R))
    (f : OnePole R) :
    processBlock ops ps buf f
      = ⟨bufAfter ops ps buf f buf.length, frameState ops ps buf f buf.length,
         (applyParamUpdate ops ps buf.length f).2 :: traceSeg ops ps buf f 0 buf.length⟩ := by
  have h := loopFrames_spec ops ps buf f buf.length 0
  rw [Nat.zero_add] at h
  simp only [processBlock, List.range_eq_range']
  have h0 : bufAfter ops ps buf f 0 = buf := rfl
  have h1 : frameState ops ps buf f 0 = (applyParamUpdate ops ps buf.length f).1 := rfl
  rw [h0, h1] at h
  rw [h]

theorem applyParamUpdate_snd (ops : DspOps R) (ps : Params R) (n : ℕ) (f : OnePole R) :
    (applyParamUpdate ops ps n f).2 = blockEvent ops ps n := by
  rcases ps with ⟨c, d, m⟩
  cases m <;> rfl

theorem bufAfter_eq_map (ops : DspOps R) (ps : Params R) (buf : List (R × R))
    (f : OnePole R) : ∀ k, k ≤ buf.length →
    bufAfter ops ps buf f k
      = ((List.range k).map (frameOutput ops ps buf f)) ++ buf.drop k := by
  intro k
  induction k with
  | zero => intro _; simp [bufAfter]
  | succ k ih =>
    intro hk
    have hlt : k < buf.length := by omega
    have hlen : ((List.range k).map (frameOutput ops ps buf f)).length = k := by simp
    rw [bufAfter, ih (by omega), List.set_append_right _ _ (by rw [hlen]),
        hlen, Nat.sub_self, List.range_succ, List.map_append, List.append_assoc]
    congr 1
    rw [List.drop_eq_getElem_cons hlt]
    rfl

theorem traceSeg_no_param (ops : DspOps R) (ps : Params R) (buf : List (R × R))
    (f : OnePole R) (a k : ℕ) :
    (traceSeg ops ps buf f a k).filter Event.isParamUpdate = [] := by
  have key : ∀ l : List ℕ,
      (((l.map (frameTrace ops ps buf f)).flatten).filter Event.isParamUpdate) = [] := by
    intro l
    induction l with
    | nil => rfl
    | cons i t ih => simp [frameTrace, Event.isParamUpdate, ih]
  exact key (List.range' a k)

theorem blockEvent_isParamUpdate (ops : DspOps R) (ps : Params R) (n : ℕ) :
    Event.isParamUpdate (blockEvent ops ps n) = true := by
  rcases ps with ⟨c, d, m⟩
  cases m <;> rfl

/-- C3: on every process call, exactly one parameter-update operation is
invoked on the filter, before any frame is iterated, and which one depends
on the mode: LowShelf invokes `set_params_low_shelving_smoothed(cutoff,
gain, block_len)`, HighShelf invokes `set_params_high_shelving_smoothed
(cutoff, gain, block_len)`, and every other mode (Highpass, Lowpass,
Allpass) invokes `set_cutoff_smoothed`, which sets no gain target. -/
theorem c3_param_update_once_per_block (ops : DspOps R) (ps : Params R)
    (buf : List (R × R)) (f : OnePole R) :
    (processBlock ops ps buf f).trace.head? = some (blockEvent ops ps buf.length)
    ∧ (processBlock ops ps buf f).trace.filter Event.isParamUpdate
        = [blockEvent ops ps buf.length]
    ∧ (∀ c d n, blockEvent ops (⟨c, d, FilterMode.LSH⟩ : Params R) n
        = Event.set_params_low_shelving (cutoffHz ops c) (gainLin ops d) n)
    ∧ (∀ c d n, blockEvent ops (⟨c, d, FilterMode.HSH⟩ : Params R) n
        = Event.set_params_high_shelving (cutoffHz ops c) (gainLin ops d) n)
    ∧ (∀ c d n, blockEvent ops (⟨c, d, FilterMode.HP⟩ : Params R) n
        = Event.set_cutoff (cutoffHz ops c) n)
    ∧ (∀ c d n, blockEvent ops (⟨c, d, FilterMode.LP⟩ : Params R) n
        = Event.set_cutoff (cutoffHz ops c) n)
    ∧ (∀ c d n, blockEvent ops (⟨c, d, FilterMode.AP⟩ : Params R) n
        = Event.set_cutoff (cutoffHz ops c) n)
    ∧ (∀ (f' : OnePole R) c n, (f'.set_cutoff_smoothed ops c n).k = f'.k) := by
  refine ⟨?_, ?_, fun c d n => rfl, fun c d n => rfl, fun c d n => rfl,
          fun c d n => rfl, fun c d n => rfl, fun f' c n => rfl⟩
  · rw [processBlock_eq, applyParamUpdate_snd]
    rfl
  · rw [processBlock_eq, applyParamUpdate_snd]
    show (blockEvent ops ps buf.length :: traceSeg ops ps buf f 0 buf.length).filter _ = _
    rw [List.filter_cons_of_pos (blockEvent_isParamUpdate ops ps buf.length),
        traceSeg_no_param]

/-- C4: for every frame of every processed block, the driver performs
`update_smoothers()` exactly once, then `process(sample)` exactly once,
then derives the output from the post-process filter state, in that order,
with no other filter operation in between: the full event trace of a block
is the parameter-update event followed by exactly this triple for each
frame index in order. -/
theorem c4_frame_order (ops : DspOps R) (ps : Params R) (buf : List (R × R))
    (f : OnePole R) :
    (processBlock ops ps buf f).trace
      = blockEvent ops ps buf.length ::
        ((List.range buf.length).map (fun i =>
            [Event.update_smoothers,
             Event.process_sample (frameInput buf i),
             Event.write_frame i
               (outputFunction ps.mode (frameState ops ps buf f (i + 1)))])).flatten := by
  rw [processBlock_eq, applyParamUpdate_snd]
  show blockEvent ops ps buf.length :: traceSeg ops ps buf f 0 buf.length = _
  rw [traceSeg, List.range_eq_range']
  rfl

/-- C6: the output-derivation function is selected from the block's mode
once (Highpass → `get_highpass`, Lowpass → `get_lowpass`, Allpass →
`get_allpass`, LowShelf → `get_lowshelf`, HighShelf → `get_highshelf`),
and that same function is applied for every frame of the block: the
returned buffer is exactly the per-frame outputs of the one selected
function, and the mode never changes within the block. -/
theorem c6_mode_block_stable (ops : DspOps R) (ps : Params R) (buf : List (R × R))
    (f : OnePole R) :
    (processBlock ops ps buf f).buffer
      = (List.range buf.length).map
          (fun i => outputFunction ps.mode (frameState ops ps buf f (i + 1)))
    ∧ @outputFunction R _ FilterMode.HP = OnePole.get_highpass
    ∧ @outputFunction R _ FilterMode.LP = OnePole.get_lowpass
    ∧ @outputFunction R _ FilterMode.AP = OnePole.get_allpass
    ∧ @outputFunction R _ FilterMode.LSH = OnePole.get_lowshelf
    ∧ @outputFunction R _ FilterMode.HSH = OnePole.get_highshelf := by
  refine ⟨?_, rfl, rfl, rfl, rfl, rfl⟩
  rw [processBlock_eq]
  show bufAfter ops ps buf f buf.length = _
  rw [bufAfter_eq_map ops ps buf f buf.length le_rfl, List.drop_length, List.append_nil]
  rfl

/-- C7: for every frame of every processed block, exactly one output
sample per channel (the whole 2-channel frame) is written back in place
before moving to the next frame — the buffer after frame `i` is the buffer
before it with entry `i` (and nothing else) replaced by the mode-selected
output function applied to the filter state after that frame's `process`
call — and the final buffer of `processBlock` is the result of exactly
these writes. -/
theorem c7_frame_write_in_place (ops : DspOps R) (ps : Params R) (buf : List (R × R))
    (f : OnePole R) (i : ℕ) (hi : i < buf.length) (j : ℕ) (hj : j ≠ i) :
    (processBlock ops ps buf f).buffer = bufAfter ops ps buf f buf.length
    ∧ bufAfter ops ps buf f (i + 1)
        = (bufAfter ops ps buf f i).set i
            (outputFunction ps.mode (frameState ops ps buf f (i + 1)))
    ∧ (bufAfter ops ps buf f (i + 1)).getD i (0, 0)
        = outputFunction ps.mode (frameState ops ps buf f (i + 1))
    ∧ (bufAfter ops ps buf f (i + 1)).getD j (0, 0)
        = (bufAfter ops ps buf f i).getD j (0, 0) := by
  have hlen : i < (bufAfter ops ps buf f i).length := by
    rw [bufAfter_length]; exact hi
  refine ⟨?_, rfl, ?_, ?_⟩
  · rw [processBlock_eq]
  · show ((bufAfter ops ps buf f i).set i _).getD i (0, 0) = _
    rw [List.getD_eq_getElem?_getD, List.getElem?_set_eq_of_lt _ hlen]
    rfl
  · show ((bufAfter ops ps buf f i).set i _).getD j (0, 0) = _
    rw [List.getD_eq_getElem?_getD,
        List.getElem?_set_ne (fun h => hj h.symm),
        ← List.getD_eq_getElem?_getD]

/-- C8: the reset entry point flushes the internal filter state (the
integrator, and the retained input) to silence while leaving the smoother
targets unchanged: `Plugin::reset` invokes only the filter's reset
operation and touches neither the parameter values nor the smoothers. -/
theorem c8_reset_flushes_state_only (st : OnePoleFilter R) :
    (st.reset).params = st.params
    ∧ (st.reset).filter = st.filter.reset
    ∧ (st.reset).filter.integ.s = ((0 : R), (0 : R))
    ∧ (st.reset).filter.x = ((0 : R), (0 : R))
    ∧ (st.reset).filter.g = st.filter.g
    ∧ (st.reset).filter.k = st.filter.k
    ∧ (st.reset).filter.piTick = st.filter.piTick :=
  ⟨rfl, rfl, rfl, rfl, rfl, rfl, rfl⟩

/-- C9: every unchecked channel access performed per frame (the reads at
indices 0 and 1 and the writes at indices 0 and 1) is in bounds whenever
the frame has the channel count fixed by the declared audio layout, which
is exactly 2 for both input and output; with the bounds checks restored,
the accesses always succeed. -/
theorem c9_unchecked_access_in_bounds {S : Type} (frame : List S)
    (lay : AudioIOLayout) (hmem : lay ∈ AUDIO_IO_LAYOUTS)
    (hch : lay.main_input_channels = some frame.length) (v : S × S) :
    accessedChannelIndices = [0, 1]
    ∧ lay.main_output_channels = some 2
    ∧ 0 < frame.length ∧ 1 < frame.length
    ∧ (readFrameChecked frame).isSome = true
    ∧ (writeFrameChecked frame v).isSome = true := by
  have hl : lay = ⟨some 2, some 2⟩ := by
    simpa [AUDIO_IO_LAYOUTS] using hmem
  rw [hl] at hch
  have hlen : frame.length = 2 := by
    exact (Option.some.inj hch).symm
  obtain ⟨a, b, rfl⟩ := List.length_eq_two.mp hlen
  exact ⟨rfl, by rw [hl], by simp, by simp, rfl, by simp [writeFrameChecked]⟩

/-- Witness for C9 at a concrete stereo frame over `ℚ`. -/
theorem c9_unchecked_access_in_bounds_witness :
    ((⟨some 2, some 2⟩ : AudioIOLayout) ∈ AUDIO_IO_LAYOUTS
      ∧ (⟨some 2, some 2⟩ : AudioIOLayout).main_input_channels
          = some ([(0 : ℚ), 0].length))
    ∧ (accessedChannelIndices = [0, 1]
      ∧ (⟨some 2, some 2⟩ : AudioIOLayout).main_output_channels = some 2
      ∧ 0 < [(0 : ℚ), 0].length ∧ 1 < [(0 : ℚ), 0].length
      ∧ (readFrameChecked [(0 : ℚ), 0]).isSome = true
      ∧ (writeFrameChecked [(0 : ℚ), 0] ((1 : ℚ), (2 : ℚ))).isSome = true) :=
  ⟨⟨by decide, rfl⟩,
   c9_unchecked_access_in_bounds [(0 : ℚ), 0] ⟨some 2, some 2⟩ (by decide) rfl
     ((1 : ℚ), (2 : ℚ))⟩

/-- C10: for the non-shelving modes (Highpass, Lowpass, Allpass) the
processed result is independent of the gain parameter: two `process` calls
on the same buffer and filter state whose snapshots agree on cutoff and
mode, with a non-shelving mode, produce identical results (buffer, filter
state and event trace), because `set_cutoff_smoothed` receives no gain and
the non-shelving output functions read no gain smoother. -/
theorem c10_nonshelf_gain_independent (ops : DspOps R) (p1 p2 : Params R)
    (buf : List (R × R)) (f : OnePole R)
    (hc : p1.cutoff = p2.cutoff) (hm : p1.mode = p2.mode)
    (hns : p1.mode = FilterMode.HP ∨ p1.mode = FilterMode.LP ∨ p1.mode = FilterMode.AP) :
    processBlock ops p1 buf f = processBlock ops p2 buf f := by
  obtain ⟨c1, d1, m1⟩ := p1
  obtain ⟨c2, d2, m2⟩ := p2
  cases hc
  cases hm
  rcases hns with h | h | h <;> cases h <;> rfl

/-- Witness for C10: same cutoff and mode, different gains, identical
results, over `ℚ`. -/
theorem c10_nonshelf_gain_independent_witness :
    ((⟨0, 1, FilterMode.HP⟩ : Params ℚ).cutoff
        = (⟨0, 2, FilterMode.HP⟩ : Params ℚ).cutoff
      ∧ (⟨0, 1, FilterMode.HP⟩ : Params ℚ).mode
        = (⟨0, 2, FilterMode.HP⟩ : Params ℚ).mode
      ∧ ((⟨0, 1, FilterMode.HP⟩ : Params ℚ).mode = FilterMode.HP
          ∨ (⟨0, 1, FilterMode.HP⟩ : Params ℚ).mode = FilterMode.LP
          ∨ (⟨0, 1, FilterMode.HP⟩ : Params ℚ).mode = FilterMode.AP))
    ∧ processBlock ratOps ⟨0, 1, FilterMode.HP⟩ [((1 : ℚ), 0)] default
        = processBlock ratOps ⟨0, 2, FilterMode.HP⟩ [((1 : ℚ), 0)] default :=
  ⟨⟨rfl, rfl, Or.inl rfl⟩,
   c10_nonshelf_gain_independent ratOps ⟨0, 1, FilterMode.HP⟩ ⟨0, 2, FilterMode.HP⟩
     [((1 : ℚ), 0)] default rfl rfl (Or.inl rfl)⟩

/-- Witness for C7 at a concrete two-frame buffer over `ℚ`: frame 0 is
written in place and frame 1 is untouched by that write. -/
theorem c7_frame_write_in_place_witness :
    (0 < [((1 : ℚ), 2), ((3 : ℚ), 4)].length ∧ (1 : ℕ) ≠ 0)
    ∧ ((processBlock ratOps ⟨0, 0, FilterMode.LP⟩ [((1 : ℚ), 2), ((3 : ℚ), 4)] default).buffer
        = bufAfter ratOps ⟨0, 0, FilterMode.LP⟩ [((1 : ℚ), 2), ((3 : ℚ), 4)] default
            [((1 : ℚ), 2), ((3 : ℚ), 4)].length
      ∧ bufAfter ratOps ⟨0, 0, FilterMode.LP⟩ [((1 : ℚ), 2), ((3 : ℚ), 4)] default (0 + 1)
        = (bufAfter ratOps ⟨0, 0, FilterMode.LP⟩ [((1 : ℚ), 2), ((3 : ℚ), 4)] default 0).set 0
            (outputFunction (⟨0, 0, FilterMode.LP⟩ : Params ℚ).mode
              (frameState ratOps ⟨0, 0, FilterMode.LP⟩ [((1 : ℚ), 2), ((3 : ℚ), 4)] default
                (0 + 1)))
      ∧ (bufAfter ratOps ⟨0, 0, FilterMode.LP⟩ [((1 : ℚ), 2), ((3 : ℚ), 4)] default
            (0 + 1)).getD 0 (0, 0)
        = outputFunction (⟨0, 0, FilterMode.LP⟩ : Params ℚ).mode
            (frameState ratOps ⟨0, 0, FilterMode.LP⟩ [((1 : ℚ), 2), ((3 : ℚ), 4)] default
              (0 + 1))
      ∧ (bufAfter ratOps ⟨0, 0, FilterMode.LP⟩ [((1 : ℚ), 2), ((3 : ℚ), 4)] default
            (0 + 1)).getD 1 (0, 0)
        = (bufAfter ratOps ⟨0, 0, FilterMode.LP⟩ [((1 : ℚ), 2), ((3 : ℚ), 4)] default 0).getD 1
            (0, 0)) :=
  ⟨⟨by decide, by decide⟩,
   c7_frame_write_in_place ratOps ⟨0, 0, FilterMode.LP⟩ [((1 : ℚ), 2), ((3 : ℚ), 4)] default 0
     (by decide) 1 (by decide)⟩

/-- C1: for every cutoff parameter value `p` in `[0, 1]`, the cutoff
frequency handed to the filter each block equals `13 * (21000/13)^p` Hz:
the normalized slider is mapped exponentially onto `[13 Hz, 21000 Hz]`,
with `p = 0` giving 13 Hz, `p = 1` giving 21000 Hz, and `p = 0.5` giving
the geometric mean `√(13 · 21000)`. -/
theorem c1_cutoff_map_exponential (p : ℝ) (h0 : 0 ≤ p) (h1 : p ≤ 1) :
    cutoffHz realOps p = 13 * (21000 / 13 : ℝ) ^ p
    ∧ cutoffHz realOps 0 = 13
    ∧ cutoffHz realOps 1 = 21000
    ∧ cutoffHz realOps (1 / 2 : ℝ) = Real.sqrt (13 * 21000) := by
  refine ⟨rfl, ?_, ?_, ?_⟩
  · show (13 : ℝ) * (21000 / 13 : ℝ) ^ (0 : ℝ) = 13
    rw [Real.rpow_zero]
    norm_num
  · show (13 : ℝ) * (21000 / 13 : ℝ) ^ (1 : ℝ) = 21000
    rw [Real.rpow_one]
    norm_num
  · show (13 : ℝ) * (21000 / 13 : ℝ) ^ ((1 : ℝ) / 2) = Real.sqrt (13 * 21000)
    rw [← Real.sqrt_eq_rpow]
    rw [show (13 : ℝ) * 21000 = 169 * (21000 / 13) by norm_num]
    rw [Real.sqrt_mul (by norm_num : (0 : ℝ) ≤ 169)]
    rw [show (169 : ℝ) = 13 ^ 2 by norm_num, Real.sqrt_sq (by norm_num : (0 : ℝ) ≤ 13)]

/-- Witness for C1 at the concrete slider value `p = 1/2`. -/
theorem c1_cutoff_map_exponential_witness :
    ((0 : ℝ) ≤ 1 / 2 ∧ (1 / 2 : ℝ) ≤ 1)
    ∧ (cutoffHz realOps (1 / 2) = 13 * (21000 / 13 : ℝ) ^ ((1 : ℝ) / 2)
      ∧ cutoffHz realOps 0 = 13
      ∧ cutoffHz realOps 1 = 21000
      ∧ cutoffHz realOps (1 / 2 : ℝ) = Real.sqrt (13 * 21000)) :=
  ⟨⟨by norm_num, by norm_num⟩,
   c1_cutoff_map_exponential (1 / 2) (by norm_num) (by norm_num)⟩

/-- C2: for every gain parameter value `d` in dB, the linear gain factor
computed each block equals `10^(d/20)`; for `d = +6` the factor is
`≈ 1.9953`, for `d = -6` it is `≈ 0.5012`, and the product of the two
factors is exactly 1, so the dB-to-linear map is a consistent inverse
pair around 0 dB. -/
theorem c2_gain_db_to_linear :
    (∀ d : ℝ, gainLin realOps d = (10 : ℝ) ^ (d / 20))
    ∧ gainLin realOps 6 * gainLin realOps (-6) = 1
    ∧ ((1.9952 : ℝ) < gainLin realOps 6 ∧ gainLin realOps 6 < 1.9954)
    ∧ ((0.5011 : ℝ) < gainLin realOps (-6) ∧ gainLin realOps (-6) < 0.5013) := by
  have hmap : ∀ d : ℝ, gainLin realOps d = (10 : ℝ) ^ (d / 20) := by
    intro d
    show (10 : ℝ) ^ (d * (1 / 20)) = (10 : ℝ) ^ (d / 20)
    rw [mul_one_div]
  have h6 : gainLin realOps 6 = (10 : ℝ) ^ ((3 : ℝ) / 10) := by
    rw [hmap, show ((6 : ℝ) / 20) = (3 : ℝ) / 10 by norm_num]
  have hm6 : gainLin realOps (-6) = ((10 : ℝ) ^ ((3 : ℝ) / 10))⁻¹ := by
    rw [hmap, show ((-6 : ℝ) / 20) = -((3 : ℝ) / 10) by norm_num]
    exact Real.rpow_neg (by norm_num) _
  have hxpos : 0 < (10 : ℝ) ^ ((3 : ℝ) / 10) := Real.rpow_pos_of_pos (by norm_num) _
  have hx10 : ((10 : ℝ) ^ ((3 : ℝ) / 10)) ^ (10 : ℕ) = 1000 := by
    rw [← Real.rpow_natCast ((10 : ℝ) ^ ((3 : ℝ) / 10)) 10,
        ← Real.rpow_mul (by norm_num : (0 : ℝ) ≤ 10),
        show ((3 : ℝ) / 10 * ((10 : ℕ) : ℝ)) = (((3 : ℕ) : ℝ)) by push_cast; ring,
        Real.rpow_natCast]
    norm_num
  have hlow : (1.9952 : ℝ) < (10 : ℝ) ^ ((3 : ℝ) / 10) := by
    apply lt_of_pow_lt_pow_left₀ 10 (le_of_lt hxpos)
    rw [hx10]
    norm_num
  have hhigh : (10 : ℝ) ^ ((3 : ℝ) / 10) < (1.9954 : ℝ) := by
    apply lt_of_pow_lt_pow_left₀ 10 (by norm_num : (0 : ℝ) ≤ (1.9954 : ℝ))
    rw [hx10]
    norm_num
  refine ⟨hmap, ?_, ⟨by rw [h6]; exact hlow, by rw [h6]; exact hhigh⟩, ⟨?_, ?_⟩⟩
  · rw [h6, hm6, mul_inv_cancel₀ (ne_of_gt hxpos)]
  · rw [hm6, ← one_div, lt_div_iff₀ hxpos]
    nlinarith [hhigh]
  · rw [hm6, ← one_div, div_lt_iff₀ hxpos]
    nlinarith [hlow]

/-- C5 counterexample: the claim says the cutoff value passed to the
block-level parameter-update operation is the mapped frequency already
multiplied by `π / sample_rate`.  At cutoff parameter 0 with sample rate
44100 the driver passes 13 (the mapped frequency in Hz), which is not
`13 · π / 44100`. -/
theorem c5_cutoff_angular_counterexample :
    (processBlock realOps ⟨0, 0, FilterMode.LP⟩ [((0 : ℝ), 0)]
        ((default : OnePole ℝ).set_sample_rate realOps 44100)).trace.head?
      = some (Event.set_cutoff (13 : ℝ) 1)
    ∧ cutoffHz realOps 0 = 13
    ∧ (13 : ℝ) ≠ cutoffHz realOps 0 * (Real.pi / 44100) := by
  have hc : cutoffHz realOps (0 : ℝ) = 13 := by
    show (13 : ℝ) * (21000 / 13 : ℝ) ^ (0 : ℝ) = 13
    rw [Real.rpow_zero]
    norm_num
  refine ⟨?_, hc, ?_⟩
  · rw [processBlock_eq, applyParamUpdate_snd]
    show some (blockEvent realOps (⟨0, 0, FilterMode.LP⟩ : Params ℝ)
        ([((0 : ℝ), 0)].length)) = _
    rw [← hc]
    rfl
  · rw [hc]
    intro h
    have hpi : Real.pi ≤ 4 := Real.pi_le_four
    have hpipos : 0 < Real.pi := Real.pi_pos
    linarith

/-- C5 (amended): the cutoff value passed to the block-level
parameter-update operations is the mapped physical frequency in Hz
(`cutoffHz`); the filter itself converts it to angular form by
multiplying with the cached `π / sample_rate` factor set at
initialization, and from `θ = cutoff · π / sample_rate` computes the
coefficient target `g_target = tan θ / (1 + tan θ)`. -/
theorem c5_cutoff_hz_passed_angular_inside (sr p d : ℝ) (m : FilterMode)
    (f : OnePole ℝ) (n : ℕ) :
    (applyParamUpdate realOps (⟨p, d, m⟩ : Params ℝ) n
        (f.set_sample_rate realOps sr)).2
      = blockEvent realOps (⟨p, d, m⟩ : Params ℝ) n
    ∧ (f.set_sample_rate realOps sr).piTick = Real.pi / sr
    ∧ (applyParamUpdate realOps (⟨p, d, m⟩ : Params ℝ) n
          (f.set_sample_rate realOps sr)).1.g.target
        = Real.tan (cutoffHz realOps p * (Real.pi / sr))
          / (1 + Real.tan (cutoffHz realOps p * (Real.pi / sr))) := by
  refine ⟨applyParamUpdate_snd _ _ _ _, rfl, ?_⟩
  cases m <;> rfl
